import Mathlib

/-!
# BiasScope core — shallow embedding and verification

This file embeds the core of the BiasScope bias-and-fairness analysis system
in Lean 4 and proves properties of it.

The repository ships the React frontend (`frontend/src/pages/Results.jsx` and
its extended variant with the recommendation card), the MongoDB schema and
consistency documentation (`database/init_indexes.js` and the database /
reports documentation), and the API documentation.  The Python backend
services (`data_generator.py`, `model_client.py`, `bias_analyzer.py`,
`analysis_service.py`, `main.py`) are referenced by the documentation but are
not part of the source tree; where a definition below models one of those
missing services its doc comment says so explicitly and follows the
specification's wording.  Everything taken from files that are present
(the recommendation logic of the Results page, the persisted status
vocabulary, the data-consistency rules) is translated directly from those
files.

Numbers are modelled as `ℚ` (the JavaScript / Python code manipulates scores
such as 0.3 and 0.7 exactly), sequences as `List`, and fallible operations as
`Except`.
-/

namespace BiasScope

/-- A JSON-like scalar value: feature values are either numeric or
categorical strings (see the `features` object of `SyntheticInput` in the
database schema documentation). -/
inductive Value where
  | num (q : ℚ)
  | str (s : String)
  deriving DecidableEq, Repr

/-- One synthetic input record: `input_id` plus a features object
(`SyntheticInput` in the database schema documentation; `FeatureRecord` in
the specification). -/
structure FeatureRecord where
  recordId : Nat
  features : List (String × Value)
  deriving DecidableEq, Repr

/-- One model output record: the `input_id` it answers and the scalar
decision score extracted from the model response (`ModelOutput` /
`OutcomeRecord`). -/
structure OutcomeRecord where
  recordId : Nat
  decisionScore : ℚ
  deriving DecidableEq, Repr

/-! ## Population Generator (spec-modelled)

`backend/app/services/data_generator.py` is not in the source tree; the
definitions in this section are modelled from the specification §4.2. -/

/-- A feature definition of the generator schema: numeric with a range, or
categorical with labelled values, a subset of which are flagged as protected
attributes (specification §4.2). -/
inductive FeatureDef where
  | numeric (name : String) (lo hi : ℚ)
  | categorical (name : String) (values : List String) (isProtected : Bool)
  deriving DecidableEq, Repr

/-- The declared name of a feature definition. -/
def FeatureDef.name : FeatureDef → String
  | .numeric n _ _ => n
  | .categorical n _ _ => n

/-- Modelled from the spec: a deterministic pseudo-random step (linear
congruential generator) standing in for the seeded randomness of the missing
`data_generator.py`. -/
def lcg (s : Nat) : Nat := (1103515245 * s + 12345) % 2 ^ 31

/-- Modelled from the spec: the pseudo-random draw used for record `i`,
feature position `j`, under `seed`. -/
def draw (seed i j : Nat) : Nat := lcg (lcg (lcg (seed + 1) * 31 + i) * 31 + j)

/-- Modelled from the spec: produce the value of one schema feature for
record `i`.  Numeric features are drawn inside `[lo, hi]`; non-protected
categorical features are drawn uniformly from their values; protected
categorical features are assigned cyclically over their values — the
limiting case of the re-weighting of draws that §4.2 requires to keep every
category above its minimum share. -/
def genFeature (seed i j : Nat) : FeatureDef → String × Value
  | .numeric n lo hi => (n, .num (lo + (hi - lo) * (draw seed i j % 1001 : Nat) / 1000))
  | .categorical n vals isProt =>
      (n, .str (vals.getD (if isProt then i % vals.length else draw seed i j % vals.length) ""))

/-- Modelled from the spec: the features object of record `i`, one entry per
schema feature, in schema order (`j` is the position of the first remaining
feature). -/
def genFeatures (seed i : Nat) : Nat → List FeatureDef → List (String × Value)
  | _, [] => []
  | j, fd :: rest => genFeature seed i j fd :: genFeatures seed i (j + 1) rest

/-- Modelled from the spec: the `i`-th synthetic record. -/
def genRecord (schema : List FeatureDef) (seed i : Nat) : FeatureRecord :=
  { recordId := i, features := genFeatures seed i 0 schema }

/-- Error raised by the generator on invalid parameters (specification §4.2
and §7: `ConfigurationError`). -/
inductive GenError where
  | configurationError
  deriving DecidableEq, Repr

/-- Modelled from the spec (§4.2, `data_generator.py` missing from the
source tree): `generate(count, featureSchema)` fails with
`ConfigurationError` when `count ≤ 0` and otherwise returns an ordered
sequence of exactly `count` feature records, deterministic in the seed. -/
def generate (count : Nat) (schema : List FeatureDef) (seed : Nat) :
    Except GenError (List FeatureRecord) :=
  if count = 0 then .error .configurationError
  else .ok ((List.range count).map (genRecord schema seed))

/-- Modelled from the spec (§4.2): the generator accepts an *optional* seed;
when no seed is supplied the draws depend on ambient entropy that differs
between calls, when a seed is supplied the ambient entropy is ignored. -/
def generateWithOptionalSeed (count : Nat) (schema : List FeatureDef)
    (seed : Option Nat) (ambientEntropy : Nat) : Except GenError (List FeatureRecord) :=
  generate count schema (seed.getD ambientEntropy)

/-- A record has a value for the named feature. -/
def hasFeature (r : FeatureRecord) (n : String) : Prop :=
  ∃ v, (n, v) ∈ r.features

/-- A feature definition is valid when a categorical feature offers at
least one value and a numeric range is ordered. -/
def FeatureDef.valid : FeatureDef → Prop
  | .numeric _ lo hi => lo ≤ hi
  | .categorical _ vals _ => vals ≠ []

instance : DecidablePred FeatureDef.valid := fun fd =>
  match fd with
  | .numeric _ lo hi => inferInstanceAs (Decidable (lo ≤ hi))
  | .categorical _ vals _ => inferInstanceAs (Decidable (vals ≠ []))

/-- A schema is valid when each of its feature definitions is. -/
def ValidSchema (schema : List FeatureDef) : Prop :=
  ∀ fd ∈ schema, fd.valid

instance (schema : List FeatureDef) : Decidable (ValidSchema schema) :=
  inferInstanceAs (Decidable (∀ fd ∈ schema, fd.valid))

/-- The share of the population whose feature `a` carries category `c`. -/
def categoryShare (l : List FeatureRecord) (a c : String) : ℚ :=
  ((l.filter (fun r => r.features.lookup a == some (Value.str c))).length : ℚ) / l.length

/-! ## Results page recommendation (from `Results.jsx`, extended variant)

Translated from the `getRecommendation` function of the Results page: the
score bands are `score < 0.3`, `score < 0.7`, and everything else, and the
score fed to it is `analysisData.results?.overall_bias_score || 0`. -/

/-- The recommendation card contents produced by the Results page. -/
structure Recommendation where
  level : String
  statusLabel : String
  color : String
  icon : String
  deriving DecidableEq, Repr

/-- Translated from `getRecommendation` in the Results page: thresholds 0.3
and 0.7 select the low / moderate / high bias recommendation. -/
def getRecommendation (score : ℚ) : Recommendation :=
  if score < 3 / 10 then
    { level := "Low Bias", statusLabel := "Safe to Use", color := "green", icon := "✓" }
  else if score < 7 / 10 then
    { level := "Moderate Bias", statusLabel := "Use With Caution", color := "yellow", icon := "⚠" }
  else
    { level := "High Bias", statusLabel := "Do Not Use", color := "red", icon := "✕" }

/-- Translated from the Results page call site
`getRecommendation(analysisData.results?.overall_bias_score || 0)`: a
missing overall bias score is replaced by `0`. -/
def displayedRecommendation (overallScore : Option ℚ) : Recommendation :=
  getRecommendation (overallScore.getD 0)

/-! ## Bias & Fairness Analyzer (spec-modelled)

`backend/app/services/bias_analyzer.py` is not in the source tree; the
definitions in this section are modelled from the specification §4.4. -/

/-- Modelled from the spec: the fixed decision threshold against which a
decision score counts as a positive outcome. -/
def decisionThreshold : ℚ := 1 / 2

/-- Modelled from the spec: the decision score answering record `rid`, when
one was collected. -/
def scoreOf (outputs : List OutcomeRecord) (rid : Nat) : Option ℚ :=
  (outputs.find? (fun o => o.recordId == rid)).map (fun o => o.decisionScore)

/-- Modelled from the spec: the decision scores of the successfully paired
records whose protected attribute `a` has category `c`. -/
def groupScores (inputs : List FeatureRecord) (outputs : List OutcomeRecord)
    (a c : String) : List ℚ :=
  (inputs.filter (fun r => r.features.lookup a == some (Value.str c))).filterMap
    (fun r => scoreOf outputs r.recordId)

/-- Modelled from the spec (§4.4, per-group positive rate): the fraction of
the scores that exceed the decision threshold (`0` on an empty group, the
guarded error case). -/
def positiveRate (scores : List ℚ) : ℚ :=
  ((scores.filter (fun s => decide (decisionThreshold < s))).length : ℚ) / scores.length

/-- Largest element of a list of rationals (`0` on the empty list). -/
def maxQ : List ℚ → ℚ
  | [] => 0
  | q :: qs => qs.foldl max q

/-- Smallest element of a list of rationals (`0` on the empty list). -/
def minQ : List ℚ → ℚ
  | [] => 0
  | q :: qs => qs.foldl min q

/-- Modelled from the spec: the per-group positive rates of attribute `a`
across its categories, in category order. -/
def groupRates (inputs : List FeatureRecord) (outputs : List OutcomeRecord)
    (a : String) (cats : List String) : List ℚ :=
  cats.map (fun c => positiveRate (groupScores inputs outputs a c))

/-- Modelled from the spec (§4.4): the demographic parity metric of
attribute `a` = (max per-group positive rate) − (min per-group positive
rate) across its categories. -/
def demographicParity (inputs : List FeatureRecord) (outputs : List OutcomeRecord)
    (a : String) (cats : List String) : ℚ :=
  maxQ (groupRates inputs outputs a cats) - minQ (groupRates inputs outputs a cats)

/-- Modelled from the spec (§4.4): the overall bias score is the mean of the
demographic parity metrics across the protected attributes. -/
def overallBiasScore (inputs : List FeatureRecord) (outputs : List OutcomeRecord)
    (attrs : List (String × List String)) : ℚ :=
  ((attrs.map (fun p => demographicParity inputs outputs p.1 p.2)).sum) / attrs.length

/-- The analyzer's result document (`AnalysisResults` in the database
schema documentation, restricted to the fields the claims mention). -/
structure AnalysisResult where
  overallBias : ℚ
  demographicParityList : List (String × ℚ)
  deriving DecidableEq, Repr

/-- Error raised by the analyzer (specification §4.4 and §7:
`InsufficientDataError`). -/
inductive AnalyzeError where
  | insufficientData
  deriving DecidableEq, Repr

/-- Modelled from the spec (§4.4, `bias_analyzer.py` missing from the
source tree): `analyze` requires at least one successfully paired record per
protected-attribute category and fails with `InsufficientDataError`
otherwise; on success it reports the overall bias score and the demographic
parity metric of every protected attribute. -/
def analyze (inputs : List FeatureRecord) (outputs : List OutcomeRecord)
    (attrs : List (String × List String)) : Except AnalyzeError AnalysisResult :=
  if attrs.all (fun p => p.2.all (fun c => !(groupScores inputs outputs p.1 c).isEmpty)) then
    .ok { overallBias := overallBiasScore inputs outputs attrs,
          demographicParityList :=
            attrs.map (fun p => (p.1, demographicParity inputs outputs p.1 p.2)) }
  else .error .insufficientData

/-! ## Model Invocation Client (spec-modelled)

`backend/app/services/model_client.py` is not in the source tree; the
definitions in this section are modelled from the specification §4.3. -/

/-- One attempt's observable result from the target endpoint: a transient
failure (timeout, connection reset, 5xx — retried), a non-transient failure
(4xx, malformed body — not retried), or a JSON response body. -/
inductive AttemptResult where
  | transient
  | fatal
  | response (fields : List (String × Value))
  deriving DecidableEq, Repr

/-- Modelled from the spec (§4.3, extraction rule): probe a numeric
"prediction"-like field first, else a binary "label"/"result"-like field
mapped to 0 or 1, else the response is unusable (`none`) — never a guessed
default. -/
def extractScore (fields : List (String × Value)) : Option ℚ :=
  match fields.lookup "prediction" with
  | some (.num q) => some q
  | _ =>
    match fields.lookup "label" with
    | some (.str s) => some (if s = "approved" then 1 else 0)
    | _ =>
      match fields.lookup "result" with
      | some (.str s) => some (if s = "approved" then 1 else 0)
      | _ => none

/-- Modelled from the spec (§4.3): transient failures are retried up to this
fixed bound. -/
def maxRetries : Nat := 2

/-- Modelled from the spec: walk the attempt sequence from attempt `k`,
consuming one unit of retry budget per transient failure, and return the
first non-transient attempt, if the budget admits one. -/
def settleFrom (attempts : Nat → AttemptResult) (k : Nat) : Nat → Option AttemptResult
  | 0 => none
  | fuel + 1 =>
    match attempts k with
    | .transient => settleFrom attempts (k + 1) fuel
    | r => some r

/-- Modelled from the spec (§4.3): invoke the endpoint for one record.
Returns `none` when the retries are exhausted, the settled attempt is a
non-transient failure, or the response yields no extractable score; the
outcome is always keyed by the record's own `recordId`. -/
def invoke (r : FeatureRecord) (attempts : Nat → AttemptResult) : Option OutcomeRecord :=
  match settleFrom attempts 0 (maxRetries + 1) with
  | some (.response fields) =>
      (extractScore fields).map (fun q => { recordId := r.recordId, decisionScore := q })
  | _ => none

/-- Error raised by the batch driver (specification §4.3 and §7:
`ModelUnreachableError`). -/
inductive ModelError where
  | modelUnreachable
  deriving DecidableEq, Repr

/-- Modelled from the spec: the outcome records collected by the batch
driver — records whose invocation fails are dropped, not substituted.
`oracle` maps a record id to its attempt sequence. -/
def collectOutputs (records : List FeatureRecord)
    (oracle : Nat → Nat → AttemptResult) : List OutcomeRecord :=
  records.filterMap (fun r => invoke r (oracle r.recordId))

/-- Modelled from the spec (§4.3, `model_client.py` missing from the source
tree): the batch driver `invokeAll` returns the collected outcomes, which
may be fewer than the inputs, unless more than half of the records were
dropped, in which case the whole job fails with `ModelUnreachableError`. -/
def invokeAll (records : List FeatureRecord)
    (oracle : Nat → Nat → AttemptResult) : Except ModelError (List OutcomeRecord) :=
  if records.length < 2 * (records.length - (collectOutputs records oracle).length) then
    .error .modelUnreachable
  else .ok (collectOutputs records oracle)

/-! ## Analysis Orchestrator (spec-modelled state machine)

`backend/app/services/analysis_service.py` is not in the source tree; the
pipeline below is modelled from the specification §4.1 and the data flow of
§2.  The persisted status vocabulary is translated from the files that are
present: the database schema documentation accompanying
`database/init_indexes.js` declares `status` to be one of
`"started" | "in_progress" | "completed" | "failed"`, and its Data
Consistency Rules state `started → in_progress → completed or failed`,
"cannot go backwards", results only when completed, error message only when
failed. -/

/-- The orchestrator's pipeline stage (the specification's six-state
machine, §4.1). -/
inductive Status where
  | created
  | generatingData
  | queryingModel
  | analyzing
  | completed
  | failed
  deriving DecidableEq, Repr

/-- Translated from the database schema documentation: the persisted
`status` string of an analysis document.  The schema declares exactly four
values — the three active pipeline stages are all persisted as
`"in_progress"`. -/
def Status.persisted : Status → String
  | .created => "started"
  | .generatingData => "in_progress"
  | .queryingModel => "in_progress"
  | .analyzing => "in_progress"
  | .completed => "completed"
  | .failed => "failed"

/-- Translated from the database schema documentation (the companion of
`database/init_indexes.js`, also repeated in the API documentation): the
status values declared for the `analyses` collection. -/
def analysesStatusValues : List String := ["started", "in_progress", "completed", "failed"]

/-- The six status names used by the specification's state machine (§3). -/
def specStatusNames : List String :=
  ["Created", "GeneratingData", "QueryingModel", "Analyzing", "Completed", "Failed"]

/-- A persisted snapshot of an `AnalysisJob` (the `analyses` document of the
database schema documentation, restricted to the fields the claims
mention). -/
structure Job where
  status : Status
  progress : Nat
  syntheticInputs : List FeatureRecord
  modelOutputs : List OutcomeRecord
  results : Option AnalysisResult
  errorDetail : Option String
  deriving DecidableEq, Repr

/-- The parameters fixed for one pipeline run: generator configuration,
protected attributes, and the target endpoint's behaviour (`oracle` maps a
record id and an attempt number to that attempt's result). -/
structure PipelineConfig where
  count : Nat
  schema : List FeatureDef
  seed : Nat
  protectedAttrs : List (String × List String)
  oracle : Nat → Nat → AttemptResult

/-- The freshly created job record (specification §4.1: state `Created`,
progress 0, no data, no results, no error). -/
def initialJob : Job :=
  { status := .created, progress := 0, syntheticInputs := [], modelOutputs := [],
    results := none, errorDetail := none }

/-- Progress ceiling reached when data generation completes (specification
§4.1 progress mapping). -/
def genCeiling : Nat := 20

/-- Progress ceiling reached when model querying completes (specification
§4.1 progress mapping). -/
def queryCeiling : Nat := 80

/-- Modelled from the spec: transition a job to `Failed`, recording a
human-readable error detail and attaching no partial results (§4.1 failure
policy). -/
def failJob (j : Job) (msg : String) : Job :=
  { j with status := .failed, results := none, errorDetail := some msg }

/-- Modelled from the spec: the snapshot persisted when data generation has
completed — inputs populated once, progress at the generation ceiling. -/
def genJob (inputs : List FeatureRecord) : Job :=
  { status := .generatingData, progress := genCeiling, syntheticInputs := inputs,
    modelOutputs := [], results := none, errorDetail := none }

/-- Modelled from the spec: the progress shown after `t + 1` of `n` records
have been processed during `QueryingModel` — it advances from the generation
ceiling towards the query ceiling proportionally to records answered. -/
def queryProgress (n t : Nat) : Nat :=
  genCeiling + ((queryCeiling - genCeiling) * (t + 1)) / n

/-- Modelled from the spec: the snapshot persisted after the `(t+1)`-th
record has been processed during `QueryingModel`; outputs collected so far,
dropped records absent. -/
def querySnapshot (inputs : List FeatureRecord)
    (oracle : Nat → Nat → AttemptResult) (t : Nat) : Job :=
  { status := .queryingModel, progress := queryProgress inputs.length t,
    syntheticInputs := inputs,
    modelOutputs := collectOutputs (inputs.take (t + 1)) oracle,
    results := none, errorDetail := none }

/-- Modelled from the spec: the querying-complete snapshot, before the
outcome of the drop-rate check is applied. -/
def queryDoneJob (inputs : List FeatureRecord) (outs : List OutcomeRecord) : Job :=
  { status := .queryingModel, progress := queryCeiling, syntheticInputs := inputs,
    modelOutputs := outs, results := none, errorDetail := none }

/-- Modelled from the spec: the snapshot persisted when the analysis stage
begins. -/
def anaJob (inputs : List FeatureRecord) (outs : List OutcomeRecord) : Job :=
  { status := .analyzing, progress := queryCeiling, syntheticInputs := inputs,
    modelOutputs := outs, results := none, errorDetail := none }

/-- Modelled from the spec: the terminal completed snapshot — progress 100
and results attached. -/
def doneJob (inputs : List FeatureRecord) (outs : List OutcomeRecord)
    (res : AnalysisResult) : Job :=
  { status := .completed, progress := 100, syntheticInputs := inputs,
    modelOutputs := outs, results := some res, errorDetail := none }

/-- Modelled from the spec (§4.1, `analysis_service.py` missing from the
source tree): the ordered sequence of snapshots persisted by `run(jobId)` —
creation, generation, one snapshot per record processed while querying, the
analysis stage, and the terminal snapshot; any stage failing transitions
the job directly to `Failed` with an error detail. -/
def runTrace (cfg : PipelineConfig) : List Job :=
  initialJob ::
  match generate cfg.count cfg.schema cfg.seed with
  | .error _ => [failJob initialJob "ConfigurationError: count must be a positive integer"]
  | .ok inputs =>
    genJob inputs ::
    ((List.range inputs.length).map (querySnapshot inputs cfg.oracle)) ++
    match invokeAll inputs cfg.oracle with
    | .error _ =>
        [failJob (queryDoneJob inputs (collectOutputs inputs cfg.oracle))
          "ModelUnreachableError: more than half of the model calls were unusable"]
    | .ok outs =>
      anaJob inputs outs ::
      match analyze inputs outs cfg.protectedAttrs with
      | .error _ =>
          [failJob (anaJob inputs outs)
            "InsufficientDataError: a protected category has no paired records"]
      | .ok res => [doneJob inputs outs res]

/-- A status is terminal when the job has completed or failed. -/
def Status.terminal (s : Status) : Prop := s = .completed ∨ s = .failed

/-- The successor state of the specification's state machine (§4.1):
`Created → GeneratingData → QueryingModel → Analyzing → Completed`. -/
def Status.next : Status → Status
  | .created => .generatingData
  | .generatingData => .queryingModel
  | .queryingModel => .analyzing
  | .analyzing => .completed
  | .completed => .completed
  | .failed => .failed

/-- The relation every pair of consecutive persisted snapshots must satisfy:
the status either stays put (a progress update inside a stage) or moves to
the immediate next state of the machine, or — from a non-terminal state —
to `Failed`.  In particular no transition skips a state and none reverses. -/
def stepOk (s t : Status) : Prop :=
  t = s ∨ (¬ s.terminal ∧ (t = s.next ∨ t = .failed))

/-- The conjunction every pair of consecutive persisted snapshots must
satisfy for C7: a legal status step and non-decreasing progress. -/
def jobStep (a b : Job) : Prop :=
  stepOk a.status b.status ∧ a.progress ≤ b.progress

/-! ## Status read operation (spec-modelled)

The API layer (`backend/main.py`) is not in the source tree; `getStatus` is
modelled from specification §4.1/§6 and the API documentation's declared
`404 Not Found: Analysis not found` for `GET /api/analysis/analysis_id`. -/

/-- Error raised on a read of an unknown job id (specification §7:
`NotFoundError`). -/
inductive ApiError where
  | notFound
  deriving DecidableEq, Repr

/-- Modelled from the spec (§4.1 `getStatus`, `main.py` missing from the
source tree): look the job up in the persisted store; unknown ids fail with
`NotFoundError`, known ids return the current persisted snapshot; the store
is returned unchanged alongside the result to make the read's purity a
provable statement. -/
def getStatus (store : List (String × Job)) (jobId : String) :
    Except ApiError Job × List (String × Job) :=
  match store.lookup jobId with
  | none => (.error .notFound, store)
  | some j => (.ok j, store)

/-! ## Concrete fixtures

Small concrete instances used by the witness and counterexample theorems
below.  The schema and the oracle responses follow the repository's own
examples: a protected `gender` attribute and a model answering
`("prediction": 0.9)` for every record. -/

/-- A one-feature schema with a protected two-category attribute. -/
def demoSchema : List FeatureDef :=
  [FeatureDef.categorical "gender" ["male", "female"] true]

/-- The protected attributes of the demo schema, with their categories. -/
def demoAttrs : List (String × List String) := [("gender", ["male", "female"])]

/-- An endpoint that answers every attempt with a usable prediction. -/
def demoOracle : Nat → Nat → AttemptResult :=
  fun _ _ => .response [("prediction", .num (9 / 10))]

/-- An endpoint that answers record 0 but responds to record 1 with a
non-transient failure. -/
def demoDropOracle : Nat → Nat → AttemptResult :=
  fun rid _ => if rid = 0 then .response [("prediction", .num (9 / 10))] else .fatal

/-- An endpoint that answers every attempt with a non-transient failure. -/
def demoBadOracle : Nat → Nat → AttemptResult := fun _ _ => .fatal

/-- A pipeline configuration over the demo schema and the healthy demo
endpoint. -/
def demoCfg : PipelineConfig :=
  { count := 2, schema := demoSchema, seed := 0,
    protectedAttrs := demoAttrs, oracle := demoOracle }

/-- The population the demo configuration generates. -/
def demoInputs : List FeatureRecord := (List.range 2).map (genRecord demoSchema 0)

/-- The outcomes the demo configuration collects. -/
def demoOutputs : List OutcomeRecord := collectOutputs demoInputs demoOracle

/-- Two input records with distinct ids and no features, for exercising the
batch driver. -/
def demoRecords : List FeatureRecord :=
  [{ recordId := 0, features := [] }, { recordId := 1, features := [] }]

/-- A persisted store holding one job. -/
def demoStore : List (String × Job) := [("job-1", initialJob)]

/-! ## Theorems -/

theorem genFeature_fst (seed i j : Nat) (fd : FeatureDef) :
    (genFeature seed i j fd).1 = fd.name := by
  cases fd <;> rfl

theorem genFeatures_hasFeature (seed i : Nat) (schema : List FeatureDef) (fd : FeatureDef)
    (hfd : fd ∈ schema) : ∀ j, ∃ v, (fd.name, v) ∈ genFeatures seed i j schema := by
  induction schema with
  | nil => cases hfd
  | cons hd tl ih =>
    intro j
    rcases List.mem_cons.mp hfd with h | h
    · subst h
      cases fd with
      | numeric n lo hi => exact ⟨_, List.mem_cons_self _ _⟩
      | categorical n vals p => exact ⟨_, List.mem_cons_self _ _⟩
    · rcases ih h (j + 1) with ⟨v, hv⟩
      exact ⟨v, List.mem_cons_of_mem _ hv⟩

/-- C2: for every `count > 0` and valid schema, `generate` succeeds and
returns exactly `count` records, each containing a value for every feature
declared in the schema. -/
theorem generate_count_and_coverage (count : Nat) (schema : List FeatureDef) (seed : Nat)
    (hc : 0 < count) (_hs : ValidSchema schema) :
    ∃ l, generate count schema seed = Except.ok l ∧ l.length = count ∧
      ∀ r ∈ l, ∀ fd ∈ schema, hasFeature r fd.name := by
  refine ⟨(List.range count).map (genRecord schema seed), ?_, ?_, ?_⟩
  · unfold generate
    rw [if_neg (Nat.pos_iff_ne_zero.mp hc)]
  · simp
  · intro r hr fd hfd
    rcases List.mem_map.mp hr with ⟨i, _, rfl⟩
    exact genFeatures_hasFeature seed i schema fd hfd 0

/-- Witness for C2 at `count = 2` over the demo schema. -/
theorem generate_count_and_coverage_witness :
    (0 < 2 ∧ ValidSchema demoSchema) ∧
      ∃ l, generate 2 demoSchema 0 = Except.ok l ∧ l.length = 2 ∧
        ∀ r ∈ l, ∀ fd ∈ demoSchema, hasFeature r fd.name :=
  ⟨⟨by decide, by decide⟩,
    generate_count_and_coverage 2 demoSchema 0 (by decide) (by decide)⟩

/-- C3: the generator is deterministic in its seed — when a seed is
supplied, the output is independent of the ambient entropy that
distinguishes two separate calls, so two calls to `generate` with identical
`seed`, `schema` and `count` produce identical sequences. -/
theorem generate_seeded_deterministic (count : Nat) (schema : List FeatureDef)
    (seedVal e₁ e₂ : Nat) :
    generateWithOptionalSeed count schema (some seedVal) e₁ =
      generateWithOptionalSeed count schema (some seedVal) e₂ := rfl

/-- C9: reading a job's status fails with `NotFoundError` on an unknown id,
returns the current persisted snapshot on a known id, and never modifies
the store. -/
theorem getStatus_read (store : List (String × Job)) (jobId : String) :
    (store.lookup jobId = none →
        (getStatus store jobId).1 = Except.error ApiError.notFound) ∧
    (∀ j, store.lookup jobId = some j → (getStatus store jobId).1 = Except.ok j) ∧
    (getStatus store jobId).2 = store := by
  refine ⟨fun h => ?_, fun j hj => ?_, ?_⟩
  · unfold getStatus; rw [h]
  · unfold getStatus; rw [hj]
  · unfold getStatus
    rcases store.lookup jobId with _ | j <;> rfl

/-- Witness for C9: an unknown id is rejected, a known id is returned
unchanged, and the store is untouched. -/
theorem getStatus_read_witness :
    (demoStore.lookup "missing" = none ∧
      (getStatus demoStore "missing").1 = Except.error ApiError.notFound) ∧
    (demoStore.lookup "job-1" = some initialJob ∧
      (getStatus demoStore "job-1").1 = Except.ok initialJob) ∧
    (getStatus demoStore "job-1").2 = demoStore :=
  ⟨⟨by decide, (getStatus_read demoStore "missing").1 (by decide)⟩,
   ⟨by decide, (getStatus_read demoStore "job-1").2.1 initialJob (by decide)⟩,
   (getStatus_read demoStore "job-1").2.2⟩

/-- C10: the Results page recommendation is a total function of the overall
bias score with the fixed thresholds 0.3 and 0.7, and a missing
`overall_bias_score` is treated as 0 and therefore recommended as
`Low Bias` / `Safe to Use`. -/
theorem getRecommendation_thresholds (s : ℚ) :
    (s < 3 / 10 →
      getRecommendation s =
        { level := "Low Bias", statusLabel := "Safe to Use", color := "green", icon := "✓" }) ∧
    (3 / 10 ≤ s → s < 7 / 10 →
      getRecommendation s =
        { level := "Moderate Bias", statusLabel := "Use With Caution",
          color := "yellow", icon := "⚠" }) ∧
    (7 / 10 ≤ s →
      getRecommendation s =
        { level := "High Bias", statusLabel := "Do Not Use", color := "red", icon := "✕" }) ∧
    displayedRecommendation none =
      { level := "Low Bias", statusLabel := "Safe to Use", color := "green", icon := "✓" } := by
  refine ⟨fun h => ?_, fun h1 h2 => ?_, fun h => ?_, ?_⟩
  · unfold getRecommendation
    rw [if_pos h]
  · unfold getRecommendation
    rw [if_neg (not_lt.mpr h1), if_pos h2]
  · unfold getRecommendation
    rw [if_neg (not_lt.mpr (le_trans (by norm_num) h)), if_neg (not_lt.mpr h)]
  · have h0 : displayedRecommendation none = getRecommendation 0 := rfl
    rw [h0]
    unfold getRecommendation
    rw [if_pos (by norm_num : (0 : ℚ) < 3 / 10)]

theorem le_foldl_max (l : List ℚ) (a : ℚ) : a ≤ l.foldl max a := by
  induction l generalizing a with
  | nil => exact le_refl a
  | cons q qs ih => exact le_trans (le_max_left a q) (ih (max a q))

theorem mem_le_foldl_max (l : List ℚ) (a : ℚ) : ∀ x ∈ l, x ≤ l.foldl max a := by
  induction l generalizing a with
  | nil => intro x hx; cases hx
  | cons q qs ih =>
    intro x hx
    rcases List.mem_cons.mp hx with rfl | hx
    · exact le_trans (le_max_right a x) (le_foldl_max qs (max a x))
    · exact ih (max a q) x hx

theorem foldl_max_le (l : List ℚ) (a b : ℚ) (ha : a ≤ b) (h : ∀ x ∈ l, x ≤ b) :
    l.foldl max a ≤ b := by
  induction l generalizing a with
  | nil => exact ha
  | cons q qs ih =>
    exact ih (max a q) (max_le ha (h q (List.mem_cons_self q qs)))
      (fun x hx => h x (List.mem_cons_of_mem _ hx))

theorem foldl_min_le (l : List ℚ) (a : ℚ) : l.foldl min a ≤ a := by
  induction l generalizing a with
  | nil => exact le_refl a
  | cons q qs ih => exact le_trans (ih (min a q)) (min_le_left a q)

theorem le_foldl_min (l : List ℚ) (a b : ℚ) (ha : b ≤ a) (h : ∀ x ∈ l, b ≤ x) :
    b ≤ l.foldl min a := by
  induction l generalizing a with
  | nil => exact ha
  | cons q qs ih =>
    exact ih (min a q) (le_min ha (h q (List.mem_cons_self q qs)))
      (fun x hx => h x (List.mem_cons_of_mem _ hx))

theorem minQ_le_maxQ (l : List ℚ) : minQ l ≤ maxQ l := by
  cases l with
  | nil => exact le_refl 0
  | cons q qs => exact le_trans (foldl_min_le qs q) (le_foldl_max qs q)

theorem maxQ_le (l : List ℚ) (b : ℚ) (hb : 0 ≤ b) (h : ∀ x ∈ l, x ≤ b) : maxQ l ≤ b := by
  cases l with
  | nil => exact hb
  | cons q qs =>
    exact foldl_max_le qs q b (h q (List.mem_cons_self q qs))
      (fun x hx => h x (List.mem_cons_of_mem _ hx))

theorem minQ_nonneg (l : List ℚ) (h : ∀ x ∈ l, 0 ≤ x) : 0 ≤ minQ l := by
  cases l with
  | nil => exact le_refl 0
  | cons q qs =>
    exact le_foldl_min qs q 0 (h q (List.mem_cons_self q qs))
      (fun x hx => h x (List.mem_cons_of_mem _ hx))

theorem maxQ_sub_minQ_const (l : List ℚ) (r : ℚ) (h : ∀ x ∈ l, x = r) :
    maxQ l - minQ l = 0 := by
  cases l with
  | nil => simp [maxQ, minQ]
  | cons q qs =>
    have hq : q = r := h q (List.mem_cons_self q qs)
    have hmax : maxQ (q :: qs) = q := le_antisymm
      (foldl_max_le qs q q le_rfl
        (fun x hx => by rw [h x (List.mem_cons_of_mem _ hx), hq]))
      (le_foldl_max qs q)
    have hmin : minQ (q :: qs) = q := le_antisymm (foldl_min_le qs q)
      (le_foldl_min qs q q le_rfl
        (fun x hx => by rw [h x (List.mem_cons_of_mem _ hx), hq]))
    rw [hmax, hmin, sub_self]

theorem positiveRate_nonneg (scores : List ℚ) : 0 ≤ positiveRate scores :=
  div_nonneg (Nat.cast_nonneg _) (Nat.cast_nonneg _)

theorem positiveRate_le_one (scores : List ℚ) : positiveRate scores ≤ 1 := by
  unfold positiveRate
  rcases scores with _ | ⟨s, rest⟩
  · simp
  · rw [div_le_one (by exact_mod_cast Nat.succ_pos rest.length)]
    exact_mod_cast List.length_filter_le _ _

theorem groupRates_bounds (inputs : List FeatureRecord) (outputs : List OutcomeRecord)
    (a : String) (cats : List String) :
    ∀ x ∈ groupRates inputs outputs a cats, 0 ≤ x ∧ x ≤ 1 := by
  intro x hx
  rcases List.mem_map.mp hx with ⟨c, _, rfl⟩
  exact ⟨positiveRate_nonneg _, positiveRate_le_one _⟩

theorem demographicParity_bounds (inputs : List FeatureRecord) (outputs : List OutcomeRecord)
    (a : String) (cats : List String) :
    0 ≤ demographicParity inputs outputs a cats ∧
      demographicParity inputs outputs a cats ≤ 1 := by
  have hb := groupRates_bounds inputs outputs a cats
  have hmax : maxQ (groupRates inputs outputs a cats) ≤ 1 :=
    maxQ_le _ 1 zero_le_one (fun x hx => (hb x hx).2)
  have hmin : 0 ≤ minQ (groupRates inputs outputs a cats) :=
    minQ_nonneg _ (fun x hx => (hb x hx).1)
  unfold demographicParity
  constructor
  · exact sub_nonneg.mpr (minQ_le_maxQ _)
  · linarith

/-- C1: the demographic parity metric of every protected attribute is
(max per-group positive rate) − (min per-group positive rate) across its
categories, and lies in [0, 1]; and whenever every group of every attribute
has the same positive rate, `analyze` succeeds with demographic parity 0
for every attribute and an overall bias score of 0. -/
theorem analyze_demographic_parity (inputs : List FeatureRecord) (outputs : List OutcomeRecord)
    (attrs : List (String × List String)) :
    (∀ p ∈ attrs,
        demographicParity inputs outputs p.1 p.2 =
          maxQ (groupRates inputs outputs p.1 p.2) -
            minQ (groupRates inputs outputs p.1 p.2) ∧
        0 ≤ demographicParity inputs outputs p.1 p.2 ∧
        demographicParity inputs outputs p.1 p.2 ≤ 1) ∧
    (∀ r : ℚ,
        (∀ p ∈ attrs, ∀ c ∈ p.2, groupScores inputs outputs p.1 c ≠ []) →
        (∀ p ∈ attrs, ∀ c ∈ p.2, positiveRate (groupScores inputs outputs p.1 c) = r) →
        (∀ p ∈ attrs, demographicParity inputs outputs p.1 p.2 = 0) ∧
        ∃ res, analyze inputs outputs attrs = Except.ok res ∧
          res.overallBias = 0 ∧ ∀ e ∈ res.demographicParityList, e.2 = 0) := by
  constructor
  · intro p hp
    exact ⟨rfl, (demographicParity_bounds inputs outputs p.1 p.2).1,
      (demographicParity_bounds inputs outputs p.1 p.2).2⟩
  · intro r hdata hsame
    have hdp0 : ∀ p ∈ attrs, demographicParity inputs outputs p.1 p.2 = 0 := by
      intro p hp
      unfold demographicParity
      refine maxQ_sub_minQ_const _ r ?_
      intro x hx
      rcases List.mem_map.mp hx with ⟨c, hc, rfl⟩
      exact hsame p hp c hc
    have hcond : attrs.all
        (fun p => p.2.all (fun c => !(groupScores inputs outputs p.1 c).isEmpty)) = true := by
      rw [List.all_eq_true]
      intro p hp
      rw [List.all_eq_true]
      intro c hc
      simp [List.isEmpty_iff, hdata p hp c hc]
    refine ⟨hdp0,
      ⟨{ overallBias := overallBiasScore inputs outputs attrs,
         demographicParityList :=
           attrs.map (fun p => (p.1, demographicParity inputs outputs p.1 p.2)) },
       ?_, ?_, ?_⟩⟩
    · unfold analyze
      rw [if_pos hcond]
    · show overallBiasScore inputs outputs attrs = 0
      unfold overallBiasScore
      rw [List.sum_eq_zero, zero_div]
      intro x hx
      rcases List.mem_map.mp hx with ⟨p, hp, rfl⟩
      exact hdp0 p hp
    · intro e he
      rcases List.mem_map.mp he with ⟨p, hp, rfl⟩
      exact hdp0 p hp

theorem demo_groupScores_male :
    groupScores demoInputs demoOutputs "gender" "male" = [(9 : ℚ) / 10] := rfl

theorem demo_groupScores_female :
    groupScores demoInputs demoOutputs "gender" "female" = [(9 : ℚ) / 10] := rfl

theorem demo_positiveRate : positiveRate [(9 : ℚ) / 10] = 1 := by
  have h : decisionThreshold < (9 : ℚ) / 10 := by unfold decisionThreshold; norm_num
  simp [positiveRate, h]

theorem demo_group_hypotheses :
    (∀ p ∈ demoAttrs, ∀ c ∈ p.2, groupScores demoInputs demoOutputs p.1 c ≠ []) ∧
    (∀ p ∈ demoAttrs, ∀ c ∈ p.2, positiveRate (groupScores demoInputs demoOutputs p.1 c) = 1) := by
  constructor <;>
  · intro p hp c hc
    rw [demoAttrs, List.mem_singleton] at hp
    subst hp
    simp only [List.mem_cons, List.mem_singleton, List.not_mem_nil, or_false] at hc
    rcases hc with rfl | rfl
    · rw [show (("gender", ["male", "female"]) : String × List String).1 = "gender" from rfl,
        demo_groupScores_male]
      first
        | exact List.cons_ne_nil _ _
        | exact demo_positiveRate
    · rw [show (("gender", ["male", "female"]) : String × List String).1 = "gender" from rfl,
        demo_groupScores_female]
      first
        | exact List.cons_ne_nil _ _
        | exact demo_positiveRate

theorem stepOk_same (s : Status) : stepOk s s := Or.inl rfl

theorem stepOk_next (s : Status) (h : ¬ s.terminal) : stepOk s s.next :=
  Or.inr ⟨h, Or.inl rfl⟩

theorem stepOk_fail (s : Status) (h : ¬ s.terminal) : stepOk s Status.failed :=
  Or.inr ⟨h, Or.inr rfl⟩

theorem not_terminal_of_ne (s : Status) (h1 : s ≠ Status.completed)
    (h2 : s ≠ Status.failed) : ¬ s.terminal :=
  fun hc => hc.elim h1 h2

theorem queryProgress_last (n : Nat) : queryProgress (n + 1) n = queryCeiling := by
  unfold queryProgress
  rw [Nat.mul_div_cancel _ (Nat.succ_pos n)]
  decide

theorem querySnap_last_progress (inputs : List FeatureRecord)
    (oracle : Nat → Nat → AttemptResult) (n : Nat) (hn : inputs.length = n + 1) :
    (querySnapshot inputs oracle n).progress = queryCeiling := by
  show queryProgress inputs.length n = queryCeiling
  rw [hn]
  exact queryProgress_last n

theorem querySnap_step (inputs : List FeatureRecord)
    (oracle : Nat → Nat → AttemptResult) (t : Nat) :
    jobStep (querySnapshot inputs oracle t) (querySnapshot inputs oracle (t + 1)) := by
  constructor
  · exact stepOk_same _
  · show queryProgress inputs.length t ≤ queryProgress inputs.length (t + 1)
    unfold queryProgress
    exact Nat.add_le_add_left
      (Nat.div_le_div_right (Nat.mul_le_mul_left _ (by omega))) _

theorem querySegment_chain (inputs : List FeatureRecord)
    (oracle : Nat → Nat → AttemptResult) :
    ∀ (n : Nat) (tail : List Job),
      (∀ y ∈ tail.head?, jobStep (querySnapshot inputs oracle n) y) →
      List.Chain' jobStep tail →
      List.Chain' jobStep (genJob inputs ::
        ((List.range n).map (querySnapshot inputs oracle) ++
          querySnapshot inputs oracle n :: tail)) := by
  intro n
  induction n with
  | zero =>
    intro tail hhead htail
    rw [List.range_zero, List.map_nil, List.nil_append]
    refine List.chain'_cons.mpr ⟨?_, List.chain'_cons'.mpr ⟨hhead, htail⟩⟩
    exact ⟨stepOk_next _ (not_terminal_of_ne _ (by simp [genJob]) (by simp [genJob])),
      Nat.le_add_right _ _⟩
  | succ m ih =>
    intro tail hhead htail
    rw [List.range_succ, List.map_append, List.map_singleton, List.append_assoc,
      List.singleton_append]
    refine ih (querySnapshot inputs oracle (m + 1) :: tail) ?_ ?_
    · intro y hy
      simp only [List.head?_cons, Option.mem_some_iff] at hy
      rw [← hy]
      exact querySnap_step inputs oracle m
    · exact List.chain'_cons'.mpr ⟨hhead, htail⟩

theorem generate_ok_shape (count : Nat) (schema : List FeatureDef) (seed : Nat)
    (inputs : List FeatureRecord)
    (hg : generate count schema seed = Except.ok inputs) :
    inputs = (List.range count).map (genRecord schema seed) ∧ count ≠ 0 := by
  unfold generate at hg
  by_cases hc : count = 0
  · rw [if_pos hc] at hg
    cases hg
  · rw [if_neg hc] at hg
    exact ⟨(Except.ok.inj hg).symm, hc⟩

theorem lookup_genFeatures_protected (seed i : Nat) (schema : List FeatureDef)
    (a : String) (vals : List String)
    (hmem : FeatureDef.categorical a vals true ∈ schema)
    (hnames : (schema.map FeatureDef.name).Nodup) :
    ∀ j, (genFeatures seed i j schema).lookup a =
      some (Value.str (vals.getD (i % vals.length) "")) := by
  induction schema with
  | nil => cases hmem
  | cons hd tl ih =>
    intro j
    rw [List.map_cons] at hnames
    have hnotmem := (List.nodup_cons.mp hnames).1
    have hnames' := (List.nodup_cons.mp hnames).2
    rcases List.mem_cons.mp hmem with h | h
    · subst h
      simp [genFeatures, genFeature]
    · have hname_ne : hd.name ≠ a := by
        intro he
        exact hnotmem (he ▸ List.mem_map.mpr ⟨FeatureDef.categorical a vals true, h, rfl⟩)
      rcases hg : genFeature seed i j hd with ⟨k, v⟩
      have hk : k = hd.name := by rw [← genFeature_fst seed i j hd, hg]
      simp only [genFeatures, hg, List.lookup_cons]
      rw [show (a == k) = false from beq_eq_false_iff_ne.mpr
        (by rw [hk]; exact fun he => hname_ne he.symm)]
      exact ih h hnames' (j + 1)

theorem countP_range_mod (k j : Nat) (hj : j < k) (q : Nat) :
    (List.range (q * k)).countP (fun i => i % k == j) = q := by
  induction q with
  | zero => simp
  | succ n ih =>
    rw [Nat.succ_mul, List.range_add, List.countP_append, ih, List.countP_map]
    have heq : ((List.range k).countP ((fun i => i % k == j) ∘ (fun r => n * k + r))) =
        (List.range k).countP (fun r => r == j) := by
      refine List.countP_congr ?_
      intro r hr
      have hrk : r < k := List.mem_range.mp hr
      simp only [Function.comp_apply]
      rw [Nat.add_comm, Nat.add_mul_mod_self_right, Nat.mod_eq_of_lt hrk]
    rw [heq]
    have hcount : (List.range k).countP (fun r => r == j) = (List.range k).count j := rfl
    rw [hcount, List.count_eq_one_of_mem (List.nodup_range k) (List.mem_range.mpr hj)]

theorem div_le_countP_range_mod (k j n : Nat) (hj : j < k) :
    n / k ≤ (List.range n).countP (fun i => i % k == j) := by
  have h1 : n = n / k * k + n % k := by
    rw [Nat.mul_comm]
    exact (Nat.div_add_mod n k).symm
  calc n / k = (List.range (n / k * k)).countP (fun i => i % k == j) :=
        (countP_range_mod k j hj (n / k)).symm
    _ ≤ (List.range n).countP (fun i => i % k == j) := by
        conv_rhs => rw [h1]
        rw [List.range_add, List.countP_append]
        exact Nat.le_add_right _ _

/-- Counterexample to C4 as stated: with `count = 1` and a protected
attribute of `k = 2` categories, the category that receives no record has
share `0 < 1 / (2k)`, so the balance bound cannot hold for every
`count > 0`. -/
theorem generate_balance_counterexample :
    generate 1 demoSchema 0 =
      Except.ok [{ recordId := 0, features := [("gender", Value.str "male")] }] ∧
    categoryShare [{ recordId := 0, features := [("gender", Value.str "male")] }]
        "gender" "female" < 1 / (2 * 2) := by
  constructor
  · rfl
  · have hb : ((([("gender", Value.str "male")] : List (String × Value)).lookup "gender") ==
        some (Value.str "female")) = false := by decide
    unfold categoryShare
    rw [List.filter_cons, if_neg (by simp [hb]), List.filter_nil]
    norm_num

/-- C4 (amended): for every generated population and protected categorical
attribute with `k` categories, *provided the population has at least `k`
records*, each category's share is at least `1 / (2k)`. -/
theorem generate_balance (count : Nat) (schema : List FeatureDef) (seed : Nat)
    (a c : String) (vals : List String) (l : List FeatureRecord)
    (hmem : FeatureDef.categorical a vals true ∈ schema)
    (hnames : (schema.map FeatureDef.name).Nodup)
    (hc : c ∈ vals)
    (hk : vals.length ≤ count)
    (hgen : generate count schema seed = Except.ok l) :
    1 / (2 * (vals.length : ℚ)) ≤ categoryShare l a c := by
  have hkpos : 0 < vals.length := List.length_pos.mpr (List.ne_nil_of_mem hc)
  have hcpos : 0 < count := lt_of_lt_of_le hkpos hk
  have hl : l = (List.range count).map (genRecord schema seed) := by
    unfold generate at hgen
    rw [if_neg (Nat.pos_iff_ne_zero.mp hcpos)] at hgen
    exact (Except.ok.inj hgen).symm
  set k := vals.length with hkdef
  set j := vals.indexOf c with hjdef
  have hj : j < k := List.indexOf_lt_length.mpr hc
  have hgetD : vals.getD j "" = c := by
    rw [List.getD_eq_getElem?_getD, List.getElem?_eq_getElem hj, Option.getD_some,
      List.getElem_indexOf hj]
  -- the number of records carrying category c is at least count / k
  have hcnt : count / k ≤
      (l.filter (fun r => r.features.lookup a == some (Value.str c))).length := by
    rw [hl, ← List.countP_eq_length_filter, List.countP_map]
    refine le_trans (div_le_countP_range_mod k j count hj) (List.countP_mono_left ?_)
    intro i _ hi
    have hik : i % k = j := eq_of_beq hi
    simp only [Function.comp_apply, genRecord]
    rw [lookup_genFeatures_protected seed i schema a vals hmem hnames 0, hik, hgetD]
    exact beq_self_eq_true _
  -- arithmetic: count ≤ 2 * (k * (count / k)) ≤ 2 * k * (filtered length)
  have hq1 : 1 ≤ count / k := (Nat.one_le_div_iff hkpos).mpr hk
  have hr : count % k < k := Nat.mod_lt count hkpos
  have hdm : k * (count / k) + count % k = count := Nat.div_add_mod count k
  have hkk : k ≤ k * (count / k) := by
    calc k = k * 1 := (Nat.mul_one k).symm
      _ ≤ k * (count / k) := Nat.mul_le_mul_left k hq1
  have h2 : count ≤ 2 * (k * (count / k)) := by
    calc count = k * (count / k) + count % k := hdm.symm
      _ ≤ k * (count / k) + k := Nat.add_le_add_left (le_of_lt hr) _
      _ ≤ k * (count / k) + k * (count / k) := Nat.add_le_add_left hkk _
      _ = 2 * (k * (count / k)) := by ring
  set cntN := (l.filter (fun r => r.features.lookup a == some (Value.str c))).length
  have hfin : count ≤ 2 * k * cntN := by
    calc count ≤ 2 * (k * (count / k)) := h2
      _ ≤ 2 * (k * cntN) := by
          exact Nat.mul_le_mul_left 2 (Nat.mul_le_mul_left k hcnt)
      _ = 2 * k * cntN := by ring
  have hlen : l.length = count := by rw [hl]; simp
  unfold categoryShare
  rw [hlen]
  have hcQ : (0 : ℚ) < (count : ℚ) := by exact_mod_cast hcpos
  have hkQ : (0 : ℚ) < 2 * (k : ℚ) := by
    have : (0 : ℚ) < (k : ℚ) := by exact_mod_cast hkpos
    linarith
  rw [div_le_div_iff₀ hkQ hcQ, one_mul]
  calc ((count : ℚ)) ≤ ((2 * k * cntN : ℕ) : ℚ) := by exact_mod_cast hfin
    _ = (cntN : ℚ) * (2 * (k : ℚ)) := by push_cast; ring

/-- Witness for the amended C4: with two records over the two-category
protected demo attribute, the category `male` receives share 1/2 ≥ 1/4. -/
theorem generate_balance_witness :
    (FeatureDef.categorical "gender" ["male", "female"] true ∈ demoSchema ∧
      (demoSchema.map FeatureDef.name).Nodup ∧ "male" ∈ ["male", "female"] ∧
      (["male", "female"] : List String).length ≤ 2 ∧
      generate 2 demoSchema 0 = Except.ok demoInputs) ∧
    1 / (2 * ((["male", "female"] : List String).length : ℚ)) ≤
      categoryShare demoInputs "gender" "male" :=
  ⟨⟨by decide, by decide, by decide, by decide, rfl⟩,
    generate_balance 2 demoSchema 0 "gender" "male" ["male", "female"] demoInputs
      (by decide) (by decide) (by decide) (by decide) rfl⟩

theorem invoke_recordId (r : FeatureRecord) (attempts : Nat → AttemptResult)
    (o : OutcomeRecord) (h : invoke r attempts = some o) : o.recordId = r.recordId := by
  unfold invoke at h
  rcases hs : settleFrom attempts 0 (maxRetries + 1) with _ | res <;> rw [hs] at h
  · simp at h
  · cases res with
    | transient => simp at h
    | fatal => simp at h
    | response fields =>
      have h2 : Option.map
          (fun q => ({ recordId := r.recordId, decisionScore := q } : OutcomeRecord))
          (extractScore fields) = some o := h
      rcases Option.map_eq_some'.mp h2 with ⟨q, _, he⟩
      rw [← he]

/-- C5: every record whose invocation fails (retries exhausted or unusable
response) is dropped from the batch driver's output and never substituted,
so the output may be shorter than the input; and when more than half of the
records are dropped the whole job fails with `ModelUnreachableError`. -/
theorem invokeAll_drop_policy (records : List FeatureRecord)
    (oracle : Nat → Nat → AttemptResult)
    (hids : (records.map FeatureRecord.recordId).Nodup) :
    (records.length < 2 * (records.length - (collectOutputs records oracle).length) →
        invokeAll records oracle = Except.error ModelError.modelUnreachable) ∧
    (2 * (records.length - (collectOutputs records oracle).length) ≤ records.length →
        invokeAll records oracle = Except.ok (collectOutputs records oracle) ∧
        (collectOutputs records oracle).length ≤ records.length ∧
        (∀ o ∈ collectOutputs records oracle,
            ∃ r ∈ records, invoke r (oracle r.recordId) = some o) ∧
        (∀ r ∈ records, invoke r (oracle r.recordId) = none →
            ∀ o ∈ collectOutputs records oracle, o.recordId ≠ r.recordId)) := by
  constructor
  · intro h
    unfold invokeAll
    rw [if_pos h]
  · intro h
    refine ⟨?_, ?_, ?_, ?_⟩
    · unfold invokeAll
      rw [if_neg (not_lt.mpr h)]
    · exact List.length_filterMap_le _ _
    · intro o ho
      rcases List.mem_filterMap.mp ho with ⟨r, hr, hinv⟩
      exact ⟨r, hr, hinv⟩
    · intro r hr hnone o ho hoid
      rcases List.mem_filterMap.mp ho with ⟨r2, hr2, hinv⟩
      have hid2 : r2.recordId = r.recordId := by
        rw [← invoke_recordId r2 (oracle r2.recordId) o hinv, hoid]
      have : r2 = r := List.inj_on_of_nodup_map hids hr2 hr hid2
      rw [this, hnone] at hinv
      cases hinv

/-- Witness for C5: with two distinct-id records, an endpoint answering one
and fatally failing the other drops exactly the failed record (output
shorter, failed id absent), while an endpoint failing both makes the batch
driver fail with `ModelUnreachableError`. -/
theorem invokeAll_drop_policy_witness :
    ((demoRecords.map FeatureRecord.recordId).Nodup ∧
      2 * (demoRecords.length - (collectOutputs demoRecords demoDropOracle).length) ≤
        demoRecords.length) ∧
    (invokeAll demoRecords demoDropOracle =
        Except.ok (collectOutputs demoRecords demoDropOracle) ∧
      (collectOutputs demoRecords demoDropOracle).length ≤ demoRecords.length ∧
      (∀ o ∈ collectOutputs demoRecords demoDropOracle, o.recordId ≠ 1)) ∧
    (demoRecords.length <
        2 * (demoRecords.length - (collectOutputs demoRecords demoBadOracle).length) ∧
      invokeAll demoRecords demoBadOracle = Except.error ModelError.modelUnreachable) := by
  have hids : (demoRecords.map FeatureRecord.recordId).Nodup := by decide
  have hdrop : 2 * (demoRecords.length - (collectOutputs demoRecords demoDropOracle).length) ≤
      demoRecords.length := by decide
  have hbad : demoRecords.length <
      2 * (demoRecords.length - (collectOutputs demoRecords demoBadOracle).length) := by decide
  have hmain := (invokeAll_drop_policy demoRecords demoDropOracle hids).2 hdrop
  have hrec : invoke ({ recordId := 1, features := [] } : FeatureRecord)
      (demoDropOracle 1) = none := by decide
  refine ⟨⟨hids, hdrop⟩, ⟨hmain.1, hmain.2.1, ?_⟩,
    ⟨hbad, (invokeAll_drop_policy demoRecords demoBadOracle hids).1 hbad⟩⟩
  intro o ho
  exact hmain.2.2.2 { recordId := 1, features := [] } (by decide) hrec o ho

/-- Witness for C1: on the demo population every group's positive rate is
1, and `analyze` succeeds with parity 0 and overall bias score 0. -/
theorem analyze_demographic_parity_witness :
    ((∀ p ∈ demoAttrs, ∀ c ∈ p.2, groupScores demoInputs demoOutputs p.1 c ≠ []) ∧
     (∀ p ∈ demoAttrs, ∀ c ∈ p.2, positiveRate (groupScores demoInputs demoOutputs p.1 c) = 1)) ∧
    ((∀ p ∈ demoAttrs, demographicParity demoInputs demoOutputs p.1 p.2 = 0) ∧
      ∃ res, analyze demoInputs demoOutputs demoAttrs = Except.ok res ∧
        res.overallBias = 0 ∧ ∀ e ∈ res.demographicParityList, e.2 = 0) :=
  ⟨demo_group_hypotheses,
    (analyze_demographic_parity demoInputs demoOutputs demoAttrs).2 1
      demo_group_hypotheses.1 demo_group_hypotheses.2⟩

/-- C7: along every pipeline run's persisted snapshot sequence, every pair
of consecutive snapshots satisfies `jobStep`: the status either stays put
(a progress update inside a stage) or advances to the immediate next state
of `Created → GeneratingData → QueryingModel → Analyzing → Completed`, or
moves from a non-terminal state to `Failed` — never skipping and never
reversing — and progress never decreases. -/
theorem trace_forward_monotone (cfg : PipelineConfig) :
    List.Chain' jobStep (runTrace cfg) := by
  unfold runTrace
  rcases hg : generate cfg.count cfg.schema cfg.seed with e | inputs
  · exact List.chain'_pair.mpr
      ⟨stepOk_fail _ (not_terminal_of_ne _ (by decide) (by decide)), le_refl _⟩
  · obtain ⟨hi, hc0⟩ := generate_ok_shape cfg.count cfg.schema cfg.seed inputs hg
    have hlen : 0 < inputs.length := by
      rw [hi]
      simpa using Nat.pos_of_ne_zero hc0
    obtain ⟨n, hn⟩ : ∃ n, inputs.length = n + 1 := ⟨inputs.length - 1, by omega⟩
    have hlink : jobStep initialJob (genJob inputs) :=
      ⟨stepOk_next _ (not_terminal_of_ne _ (by decide) (by decide)), Nat.zero_le _⟩
    refine List.chain'_cons.mpr ⟨hlink, ?_⟩
    rw [hn, List.range_succ, List.map_append, List.map_singleton]
    simp only [List.append_eq]
    rw [List.append_assoc, List.singleton_append]
    rcases hq : invokeAll inputs cfg.oracle with em | outs
    · refine querySegment_chain inputs cfg.oracle n _ ?_ (List.chain'_singleton _)
      intro y hy
      simp only [List.head?_cons, Option.mem_some_iff] at hy
      rw [← hy]
      refine ⟨stepOk_fail _ (not_terminal_of_ne _ ?_ ?_),
        le_of_eq (querySnap_last_progress inputs cfg.oracle n hn)⟩ <;> simp [querySnapshot]
    · show List.Chain' jobStep (genJob inputs ::
        (List.map (querySnapshot inputs cfg.oracle) (List.range n) ++
          querySnapshot inputs cfg.oracle n ::
            (anaJob inputs outs ::
              match analyze inputs outs cfg.protectedAttrs with
              | Except.error _ => [failJob (anaJob inputs outs)
                  "InsufficientDataError: a protected category has no paired records"]
              | Except.ok res => [doneJob inputs outs res])))
      rcases ha : analyze inputs outs cfg.protectedAttrs with da | res
      · have htail : List.Chain' jobStep
            [anaJob inputs outs, failJob (anaJob inputs outs)
              "InsufficientDataError: a protected category has no paired records"] := by
          refine List.chain'_pair.mpr
            ⟨stepOk_fail _ (not_terminal_of_ne _ ?_ ?_), le_refl _⟩ <;> simp [anaJob]
        refine querySegment_chain inputs cfg.oracle n _ ?_ htail
        intro y hy
        simp only [List.head?_cons, Option.mem_some_iff] at hy
        rw [← hy]
        refine ⟨stepOk_next _ (not_terminal_of_ne _ ?_ ?_),
          le_of_eq (querySnap_last_progress inputs cfg.oracle n hn)⟩ <;>
          simp [querySnapshot]
      · have htail : List.Chain' jobStep [anaJob inputs outs, doneJob inputs outs res] := by
          refine List.chain'_pair.mpr
            ⟨stepOk_next _ (not_terminal_of_ne _ ?_ ?_), ?_⟩
          · simp [anaJob]
          · simp [anaJob]
          · show queryCeiling ≤ 100
            decide
        refine querySegment_chain inputs cfg.oracle n _ ?_ htail
        intro y hy
        simp only [List.head?_cons, Option.mem_some_iff] at hy
        rw [← hy]
        refine ⟨stepOk_next _ (not_terminal_of_ne _ ?_ ?_),
          le_of_eq (querySnap_last_progress inputs cfg.oracle n hn)⟩ <;>
          simp [querySnapshot]

/-- C6: in every persisted snapshot of every pipeline run, `results` is
present exactly when the status is `Completed`, and `errorDetail` is
present exactly when the status is `Failed`. -/
theorem trace_results_error_iff (cfg : PipelineConfig) :
    ∀ j ∈ runTrace cfg,
      (j.results.isSome ↔ j.status = Status.completed) ∧
      (j.errorDetail.isSome ↔ j.status = Status.failed) := by
  intro j hj
  unfold runTrace at hj
  rcases List.mem_cons.mp hj with rfl | hj2
  · exact ⟨by simp [initialJob], by simp [initialJob]⟩
  · rcases hg : generate cfg.count cfg.schema cfg.seed with e | inputs <;> rw [hg] at hj2
    · rcases List.mem_singleton.mp hj2 with rfl
      exact ⟨by simp [failJob, initialJob], by simp [failJob, initialJob]⟩
    · rcases List.mem_cons.mp hj2 with rfl | hj3
      · exact ⟨by simp [genJob], by simp [genJob]⟩
      · rcases List.mem_append.mp hj3 with hmap | htail
        · rcases List.mem_map.mp hmap with ⟨t, _, rfl⟩
          exact ⟨by simp [querySnapshot], by simp [querySnapshot]⟩
        · rcases hq : invokeAll inputs cfg.oracle with em | outs <;> rw [hq] at htail
          · rcases List.mem_singleton.mp htail with rfl
            exact ⟨by simp [failJob, queryDoneJob], by simp [failJob, queryDoneJob]⟩
          · rcases List.mem_cons.mp htail with rfl | htail2
            · exact ⟨by simp [anaJob], by simp [anaJob]⟩
            · rcases ha : analyze inputs outs cfg.protectedAttrs with da | res <;>
                rw [ha] at htail2
              · rcases List.mem_singleton.mp htail2 with rfl
                exact ⟨by simp [failJob, anaJob], by simp [failJob, anaJob]⟩
              · rcases List.mem_singleton.mp htail2 with rfl
                exact ⟨by simp [doneJob], by simp [doneJob]⟩

/-- Witness for C6 at the creation snapshot of the demo pipeline: neither
`results` nor `errorDetail` is present and the status is not terminal. -/
theorem trace_results_error_iff_witness :
    initialJob ∈ runTrace demoCfg ∧
      ((initialJob.results.isSome ↔ initialJob.status = Status.completed) ∧
       (initialJob.errorDetail.isSome ↔ initialJob.status = Status.failed)) :=
  ⟨List.mem_cons_self _ _,
    trace_results_error_iff demoCfg initialJob (List.mem_cons_self _ _)⟩

/-- Counterexample to C8 as stated: the demo run persists a snapshot whose
status string is `"in_progress"`, which is none of the specification's six
status names — the stored status vocabulary of the `analyses` collection is
the four-value one, not the six-value one. -/
theorem status_values_counterexample :
    ∃ j ∈ runTrace demoCfg, j.status.persisted ∉ specStatusNames := by
  refine ⟨genJob demoInputs, ?_, ?_⟩
  · exact List.mem_cons_of_mem _ (List.mem_cons_self _ _)
  · decide

/-- C8 (amended): every persisted snapshot's status string is one of
exactly the four values declared by the database schema:
`started`, `in_progress`, `completed`, `failed`. -/
theorem trace_status_values (cfg : PipelineConfig) :
    ∀ j ∈ runTrace cfg, j.status.persisted ∈ analysesStatusValues := by
  intro j _
  cases hs : j.status <;> decide

/-- Witness for the amended C8 at the creation snapshot of the demo
pipeline, whose persisted status is `"started"`. -/
theorem trace_status_values_witness :
    initialJob ∈ runTrace demoCfg ∧ initialJob.status.persisted ∈ analysesStatusValues :=
  ⟨List.mem_cons_self _ _,
    trace_status_values demoCfg initialJob (List.mem_cons_self _ _)⟩

/-- Witness for C10 at the scores 0, 0.5 and 0.9, one in each band. -/
theorem getRecommendation_thresholds_witness :
    ((0 : ℚ) < 3 / 10 ∧
      getRecommendation 0 =
        { level := "Low Bias", statusLabel := "Safe to Use", color := "green", icon := "✓" }) ∧
    ((3 / 10 ≤ (1 : ℚ) / 2 ∧ (1 : ℚ) / 2 < 7 / 10) ∧
      getRecommendation (1 / 2) =
        { level := "Moderate Bias", statusLabel := "Use With Caution",
          color := "yellow", icon := "⚠" }) ∧
    (7 / 10 ≤ (9 : ℚ) / 10 ∧
      getRecommendation (9 / 10) =
        { level := "High Bias", statusLabel := "Do Not Use", color := "red", icon := "✕" }) :=
  ⟨⟨by norm_num, (getRecommendation_thresholds 0).1 (by norm_num)⟩,
   ⟨⟨by norm_num, by norm_num⟩,
     (getRecommendation_thresholds (1 / 2)).2.1 (by norm_num) (by norm_num)⟩,
   ⟨by norm_num, (getRecommendation_thresholds (9 / 10)).2.2.1 (by norm_num)⟩⟩

end BiasScope
